import Mathlib

/-!
Verification of the joinery-sim box-joint core.

Shallow embedding of the segment generator (`BoxJointGenerator`), the
validation engine (`ValidationUtils`), and the groove mapping / carving
pipeline (`JointVisualizer`).  JavaScript numbers are modelled as exact
rationals (ℚ); finger counts and loop indices as integers; fallible
operations return explicit result records, as the source does.
-/

/-- Segment type: a solid finger or a void groove. -/
inductive SegType
  | finger
  | groove
deriving DecidableEq, Repr

/-- A joint segment: start offset from the side's local zero, width, type.
Mirrors the `{ start, width, type }` objects built by `BoxJointGenerator`. -/
structure Segment where
  start : ℚ
  width : ℚ
  type : SegType
deriving DecidableEq, Repr

instance : Inhabited Segment := ⟨⟨0, 0, SegType.finger⟩⟩

/-- Result record of the generators: `{ valid, segments?, error? }`. -/
structure GenResult where
  valid : Bool
  segments : List Segment
  error : Option String
deriving DecidableEq, Repr

/-- Fixed-mode joint configuration: `fingerWidth`, `fingerCount`, `centerKeyed`
(the fields destructured by `generateFixedJoints` / `validateFixedJoint`). -/
structure FixedJointConfig where
  fingerWidth : ℚ
  fingerCount : ℤ
  centerKeyed : Bool
deriving DecidableEq, Repr

/-- Model of `BoxJointGenerator.generateFixedJoints(config, boardDimension)`:
`totalSegments = fingerCount * 2 - 1`, `optimalWidth = boardDimension / totalSegments`,
then one loop per `centerKeyed` branch (both bodies are identical in the source)
emitting segment `i` at `i * optimalWidth`, alternating finger/groove by `i % 2`.
The JS `for (let i = 0; i < totalSegments; i++)` loop runs `totalSegments.toNat`
times (zero iterations when `totalSegments` is non-positive). -/
def generateFixedJoints (config : FixedJointConfig) (boardDimension : ℚ) : GenResult :=
  let totalSegments : ℤ := config.fingerCount * 2 - 1
  let optimalWidth : ℚ := boardDimension / (totalSegments : ℚ)
  let segments : List Segment :=
    if config.centerKeyed then
      (List.range totalSegments.toNat).map fun (i : ℕ) =>
        { start := (i : ℚ) * optimalWidth, width := optimalWidth,
          type := if i % 2 = 0 then SegType.finger else SegType.groove }
    else
      (List.range totalSegments.toNat).map fun (i : ℕ) =>
        { start := (i : ℚ) * optimalWidth, width := optimalWidth,
          type := if i % 2 = 0 then SegType.finger else SegType.groove }
  { valid := true, segments := segments, error := none }

/-- Variable-mode joint configuration: `start` parity flag and `geometry`
(the ordered list of segment widths), as destructured by
`generateVariableJoints`. -/
structure VariableJointConfig where
  start : ℤ
  geometry : List ℚ
deriving DecidableEq, Repr

/-- The `geometry.forEach((width, index) => ...)` loop of
`generateVariableJoints`: emits one segment per width, carrying the running
`currentPos` and the element `index`; type is
`(index + start) % 2 == 0 ? finger : groove`. -/
def buildVariableSegments (startFlag : ℤ) : List ℚ → ℚ → ℤ → List Segment
  | [], _, _ => []
  | width :: rest, currentPos, index =>
      { start := currentPos, width := width,
        type := if (index + startFlag) % 2 = 0 then SegType.finger else SegType.groove }
        :: buildVariableSegments startFlag rest (currentPos + width) (index + 1)

/-- Model of `BoxJointGenerator.generateVariableJoints(config, boardDimension)`:
sums `geometry` (a `reduce` from 0), rejects when the sum is more than
0.001 away from the board dimension, otherwise emits one segment per
geometry entry with cumulative starts. -/
def generateVariableJoints (config : VariableJointConfig) (boardDimension : ℚ) : GenResult :=
  let totalWidth : ℚ := config.geometry.foldl (· + ·) 0
  if |totalWidth - boardDimension| > 1 / 1000 then
    { valid := false, segments := [],
      error := some ("Geometry sum must equal dimension") }
  else
    { valid := true,
      segments := buildVariableSegments config.start config.geometry 0 0,
      error := none }

/-- Spec-level description of the variable segment list: entry `i` starts at
the sum of the first `i` widths, has width `geometry[i]`, and is a finger
exactly when `(i + start)` is even.  Used to state what
`generateVariableJoints` produces. -/
def variableSegmentSpec (startFlag : ℤ) (geometry : List ℚ) : List Segment :=
  (List.range geometry.length).map fun i =>
    { start := (geometry.take i).sum, width := geometry.getD i 0,
      type := if ((i : ℤ) + startFlag) % 2 = 0 then SegType.finger else SegType.groove }

/-- Result record of the validators: `{ valid, error?, suggestedWidth? }`. -/
structure ValidationResult where
  valid : Bool
  error : Option String
  suggestedWidth : Option ℚ
deriving DecidableEq, Repr

/-- Model of `ValidationUtils.validateVariableJoint(geometry, boardDimension)`:
rejects empty geometry, any non-positive width, and a sum more than 0.001
away from the dimension; otherwise accepts. -/
def validateVariableJoint (geometry : List ℚ) (boardDimension : ℚ) : ValidationResult :=
  if geometry.isEmpty then
    { valid := false, error := some ("Geometry array cannot be empty"),
      suggestedWidth := none }
  else if geometry.any (fun w => w ≤ 0) then
    { valid := false, error := some ("All widths must be positive"),
      suggestedWidth := none }
  else if |geometry.foldl (· + ·) 0 - boardDimension| > 1 / 1000 then
    { valid := false, error := some ("Sum must equal dimension"),
      suggestedWidth := none }
  else
    { valid := true, error := none, suggestedWidth := none }

/-- JS `Math.round`: rounds to the nearest integer, halves toward positive
infinity, i.e. `⌊x + 1/2⌋`. -/
def jsRound (x : ℚ) : ℤ := ⌊x + 1 / 2⌋

/-- Model of `ValidationUtils.calculateOptimalFingerWidth(fingerCount, boardDimension)`:
returns 0 when `fingerCount < 1` or `boardDimension <= 0`; otherwise
`boardDimension / (fingerCount * 2 - 1)` rounded to the nearest 0.5 step
(`Math.round(w * 2) / 2`). -/
def calculateOptimalFingerWidth (fingerCount : ℤ) (boardDimension : ℚ) : ℚ :=
  if fingerCount < 1 ∨ boardDimension ≤ 0 then 0
  else
    let totalSegments : ℤ := fingerCount * 2 - 1
    let calculatedWidth : ℚ := boardDimension / (totalSegments : ℚ)
    (jsRound (calculatedWidth * 2) : ℚ) / 2

/-- Model of `ValidationUtils.validateFixedJoint(config, boardDimension)`: rejects
non-positive `fingerWidth`, then `fingerCount < 1`, then a `fingerWidth`
further than 0.01 from the optimal width (attaching `suggestedWidth`);
otherwise accepts. -/
def validateFixedJoint (config : FixedJointConfig) (boardDimension : ℚ) : ValidationResult :=
  if config.fingerWidth ≤ 0 then
    { valid := false, error := some ("Finger width must be positive"),
      suggestedWidth := none }
  else if config.fingerCount < 1 then
    { valid := false, error := some ("Finger count must be at least 1"),
      suggestedWidth := none }
  else
    let optimalWidth := calculateOptimalFingerWidth config.fingerCount boardDimension
    let tolerance : ℚ := 1 / 100
    let widthDifference := |config.fingerWidth - optimalWidth|
    if widthDifference > tolerance then
      { valid := false, error := some ("Finger width does not match board dimension"),
        suggestedWidth := some optimalWidth }
    else
      { valid := true, error := none, suggestedWidth := none }

/-- Board side carrying a joint (the four cases of the visualizer's
switches; front/back are reserved and carry no joints). -/
inductive Side
  | top
  | bottom
  | left
  | right
deriving DecidableEq, Repr

/-- Board dimensions record `{ width, height, thickness }`. -/
structure Dimensions where
  width : ℚ
  height : ℚ
  thickness : ℚ
deriving DecidableEq, Repr

/-- Model of `JointVisualizer.getSideDimension(board, side)`: width for top/bottom,
height for left/right. -/
def getSideDimension (dims : Dimensions) (side : Side) : ℚ :=
  match side with
  | Side.top => dims.width
  | Side.bottom => dims.width
  | Side.left => dims.height
  | Side.right => dims.height

/-- Groove-depth resolution from `visualizeAllBoards`:
`grooveDepth = joint.grooveDepth ?? thickness`, then clamp values above
`thickness` down to `thickness`, then replace non-positive values by
`thickness`. -/
def resolveGrooveDepth (grooveDepth : Option ℚ) (thickness : ℚ) : ℚ :=
  let d0 := grooveDepth.getD thickness
  let d1 := if d0 > thickness then thickness else d0
  if d1 ≤ 0 then thickness else d1

/-- A local-space position (the THREE.Vector3 handed to a groove mesh). -/
structure Vec3 where
  x : ℚ
  y : ℚ
  z : ℚ
deriving DecidableEq, Repr

/-- An axis-aligned groove box: `BoxGeometry` size plus local position. -/
structure GrooveBox where
  sizeX : ℚ
  sizeY : ℚ
  sizeZ : ℚ
  position : Vec3
deriving DecidableEq, Repr

/-- Model of `JointVisualizer.createGrooveGeometry(board, side, segment, grooveDepth)`:
per-side box size and local-frame position of the groove solid. -/
def createGrooveGeometry (dims : Dimensions) (side : Side) (segment : Segment)
    (grooveDepth : ℚ) : GrooveBox :=
  match side with
  | Side.top =>
      { sizeX := segment.width, sizeY := grooveDepth, sizeZ := dims.thickness,
        position := { x := -dims.width / 2 + segment.start + segment.width / 2,
                      y := dims.height / 2 - grooveDepth / 2, z := 0 } }
  | Side.bottom =>
      { sizeX := segment.width, sizeY := grooveDepth, sizeZ := dims.thickness,
        position := { x := -dims.width / 2 + segment.start + segment.width / 2,
                      y := -dims.height / 2 + grooveDepth / 2, z := 0 } }
  | Side.left =>
      { sizeX := grooveDepth, sizeY := segment.width, sizeZ := dims.thickness,
        position := { x := -dims.width / 2 + grooveDepth / 2,
                      y := -dims.height / 2 + segment.start + segment.width / 2, z := 0 } }
  | Side.right =>
      { sizeX := grooveDepth, sizeY := segment.width, sizeZ := dims.thickness,
        position := { x := dims.width / 2 - grooveDepth / 2,
                      y := -dims.height / 2 + segment.start + segment.width / 2, z := 0 } }

/-- The batched boolean pass inside `subtractGroovesFromBoard`:
`resultCSG = boardCSG.subtract(g1).subtract(g2)...`, where the engine call
is fallible (it may throw); the whole pass fails as soon as one subtraction
fails.  The engine is abstracted as a function into `Option`. -/
def applyGrooveSubtractions {S G : Type} (subtract : S → G → Option S)
    (base : S) (grooves : List G) : Option S :=
  grooves.foldlM subtract base

/-- Model of `JointVisualizer.subtractGroovesFromBoard(board, grooveMeshes)`: returns
the board's solid unchanged when there is nothing to subtract; otherwise
runs the batched subtraction inside try/catch — on success the board gets
the carved result, on any engine failure it keeps its previous solid. -/
def subtractGroovesFromBoard {S G : Type} (subtract : S → G → Option S)
    (boardSolid : S) (grooveMeshes : List G) : S :=
  if grooveMeshes.isEmpty then boardSolid
  else
    match applyGrooveSubtractions subtract boardSolid grooveMeshes with
    | some result => result
    | none => boardSolid

/-- JS `String.split(',')`, modelled on the string's character list:
splits into comma-free tokens, keeping empty tokens (`"a,,b"` gives three
tokens, the empty input gives one empty token), as `split` does. -/
def splitOnComma : List Char → List (List Char)
  | [] => [[]]
  | c :: rest =>
      match splitOnComma rest with
      | [] => [[]]
      | t :: ts => if c = ',' then [] :: t :: ts else (c :: t) :: ts

/-- JS `String.trim()` on a token: strips whitespace from both ends. -/
def trimToken (cs : List Char) : List Char :=
  ((cs.dropWhile Char.isWhitespace).reverse.dropWhile Char.isWhitespace).reverse

/-- Splits the longest leading run of decimal digits from a character list. -/
def takeDigits : List Char → List Char × List Char
  | [] => ([], [])
  | c :: rest =>
      if c.isDigit then
        let p := takeDigits rest
        (c :: p.1, p.2)
      else ([], c :: rest)

/-- Value of a digit run, most significant first. -/
def digitsToNat (ds : List Char) : ℕ :=
  ds.foldl (fun acc c => 10 * acc + (c.toNat - Char.toNat ('0'))) 0

/-- JS `parseFloat` on an already-trimmed token, over exact rationals:
optional sign, then a decimal mantissa (`digits`, `digits.digits`, or
`.digits`), then an optional `e`/`E` integer exponent; the longest valid
prefix is parsed and trailing characters are ignored, exactly as
`parseFloat` does; `none` models `NaN` (no valid numeric prefix).  The IEEE
`Infinity` token has no rational counterpart and is treated as non-numeric
here. -/
def jsParseFloat (cs : List Char) : Option ℚ :=
  let signAndRest : ℚ × List Char :=
    match cs with
    | '+' :: rest => (1, rest)
    | '-' :: rest => (-1, rest)
    | _ => (1, cs)
  let intPart := takeDigits signAndRest.2
  let fracPart : List Char × List Char :=
    match intPart.2 with
    | '.' :: rest => takeDigits rest
    | _ => ([], intPart.2)
  if intPart.1.isEmpty ∧ fracPart.1.isEmpty then none
  else
    let mantissa : ℚ :=
      (digitsToNat intPart.1 : ℚ) +
        (digitsToNat fracPart.1 : ℚ) / 10 ^ fracPart.1.length
    let expValue : ℤ :=
      match fracPart.2 with
      | 'e' :: rest | 'E' :: rest =>
          let esignAndRest : ℤ × List Char :=
            match rest with
            | '+' :: r => (1, r)
            | '-' :: r => (-1, r)
            | _ => (1, rest)
          let expDigits := takeDigits esignAndRest.2
          if expDigits.1.isEmpty then 0
          else esignAndRest.1 * (digitsToNat expDigits.1 : ℤ)
      | _ => 0
    some (signAndRest.1 * mantissa * (10 : ℚ) ^ expValue)

/-- Result record of `parseGeometryArray`: `{ valid, error?, values }`. -/
structure ParseResult where
  valid : Bool
  error : Option String
  values : List ℚ
deriving DecidableEq, Repr

/-- Model of `ValidationUtils.parseGeometryArray(input)`: split on commas, trim each
token, drop tokens left empty, parse the rest with `parseFloat`; fail when
any parse is `NaN`, otherwise return the parsed values. -/
def parseGeometryArray (input : String) : ParseResult :=
  let parsed := (((splitOnComma input.data).map trimToken).filter
    (fun t => t.length > 0)).map jsParseFloat
  if parsed.any Option.isNone then
    { valid := false, error := some ("Invalid number in geometry array"), values := [] }
  else
    { valid := true, error := none, values := parsed.filterMap id }

/- Helper lemmas on the loops. -/

lemma foldl_add_eq_sum (l : List ℚ) (a : ℚ) : l.foldl (· + ·) a = a + l.sum := by
  induction l generalizing a with
  | nil => simp
  | cons x xs ih => simp [List.foldl_cons, ih, List.sum_cons]; ring

lemma buildVariableSegments_eq (startFlag : ℤ) (ws : List ℚ) (pos : ℚ) (idx : ℤ) :
    buildVariableSegments startFlag ws pos idx =
      (List.range ws.length).map fun i =>
        { start := pos + (ws.take i).sum, width := ws.getD i 0,
          type := if ((i : ℤ) + idx + startFlag) % 2 = 0 then SegType.finger
                  else SegType.groove } := by
  induction ws generalizing pos idx with
  | nil => simp [buildVariableSegments]
  | cons w rest ih =>
      rw [buildVariableSegments, ih (pos + w) (idx + 1)]
      rw [List.length_cons, List.range_succ_eq_map, List.map_cons, List.map_map]
      refine congrArg₂ List.cons (by simp) ?_
      refine List.map_congr_left fun i _ => ?_
      have harith : ((i : ℤ) + 1) + idx + startFlag = (i : ℤ) + (idx + 1) + startFlag := by ring
      simp [Function.comp, List.take_cons, List.sum_cons, harith]
      ring

lemma buildVariableSegments_length (startFlag : ℤ) (ws : List ℚ) (pos : ℚ) (idx : ℤ) :
    (buildVariableSegments startFlag ws pos idx).length = ws.length := by
  rw [buildVariableSegments_eq]
  simp

lemma buildVariableSegments_zero (startFlag : ℤ) (geometry : List ℚ) :
    buildVariableSegments startFlag geometry 0 0 = variableSegmentSpec startFlag geometry := by
  rw [buildVariableSegments_eq, variableSegmentSpec]
  refine List.map_congr_left fun i _ => ?_
  simp

lemma calculateOptimalFingerWidth_five_hundred :
    calculateOptimalFingerWidth 5 100 = 11 := by
  rw [calculateOptimalFingerWidth, if_neg (by norm_num)]
  show ((jsRound ((100 : ℚ) / ((5 * 2 - 1 : ℤ) : ℚ) * 2) : ℚ) / 2) = 11
  rw [jsRound]
  have hfl : ⌊(100 : ℚ) / ((5 * 2 - 1 : ℤ) : ℚ) * 2 + 1 / 2⌋ = (22 : ℤ) := by
    rw [Int.floor_eq_iff]
    norm_num
  rw [hfl]
  norm_num

lemma filterMap_id_length {α : Type} (l : List (Option α)) (h : ∀ o ∈ l, o ≠ none) :
    (l.filterMap id).length = l.length := by
  induction l with
  | nil => simp
  | cons o rest ih =>
      cases o with
      | none => exact absurd rfl (h none (List.mem_cons_self _ _))
      | some a =>
          simp only [List.filterMap_cons, id_eq, List.length_cons]
          exact congrArg (· + 1) (ih fun o ho => h o (List.mem_cons_of_mem _ ho))

/-- C7: `centerKeyed` does not change segment placement — generation with
`centerKeyed = true` returns exactly the same result as with
`centerKeyed = false`, for every configuration and dimension. -/
theorem centerKeyed_is_no_op (config : FixedJointConfig) (dimension : ℚ) :
    generateFixedJoints { config with centerKeyed := true } dimension =
      generateFixedJoints { config with centerKeyed := false } dimension := by
  simp [generateFixedJoints]

/-- C8: `generateFixedJoints` returns `valid = false` only when
`fingerCount < 1` (vacuously: the source never sets `valid` to `false`),
and for every `fingerCount ≥ 1` and any dimension it succeeds with
`valid = true`. -/
theorem fixed_generation_always_valid (config : FixedJointConfig) (dimension : ℚ) :
    ((generateFixedJoints config dimension).valid = false → config.fingerCount < 1) ∧
    (1 ≤ config.fingerCount → (generateFixedJoints config dimension).valid = true) := by
  have h : (generateFixedJoints config dimension).valid = true := by
    simp [generateFixedJoints]
  refine ⟨fun hf => ?_, fun _ => h⟩
  rw [h] at hf
  exact absurd hf (by simp)

/-- Witness for C8 at a concrete input. -/
theorem fixed_generation_always_valid_witness :
    (generateFixedJoints ⟨7, 4, true⟩ 70).valid = true :=
  (fixed_generation_always_valid ⟨7, 4, true⟩ 70).2 (by norm_num)

/-- C1: for `fingerCount ≥ 1` and `dimension > 0`, `generateFixedJoints`
succeeds with exactly `2*fingerCount - 1` segments that strictly alternate
starting (and, the count being odd, ending) with a finger, each of width
`dimension / (2*fingerCount - 1)`, segment `i` starting at `i` times that
width; the widths sum exactly to `dimension` (hence within 1e-9), and the
result never depends on `config.fingerWidth`. -/
theorem fixed_segments_correct (config : FixedJointConfig) (dimension : ℚ)
    (hfc : 1 ≤ config.fingerCount) (hdim : 0 < dimension) :
    (generateFixedJoints config dimension).valid = true ∧
    (((generateFixedJoints config dimension).segments.length : ℤ) =
      config.fingerCount * 2 - 1) ∧
    (∀ i : ℕ, ∀ hi : i < (generateFixedJoints config dimension).segments.length,
        ((generateFixedJoints config dimension).segments.get ⟨i, hi⟩).width =
          dimension / ((config.fingerCount * 2 - 1 : ℤ) : ℚ) ∧
        ((generateFixedJoints config dimension).segments.get ⟨i, hi⟩).start =
          (i : ℚ) * (dimension / ((config.fingerCount * 2 - 1 : ℤ) : ℚ)) ∧
        ((generateFixedJoints config dimension).segments.get ⟨i, hi⟩).type =
          (if i % 2 = 0 then SegType.finger else SegType.groove)) ∧
    (generateFixedJoints config dimension).segments.length % 2 = 1 ∧
    ((generateFixedJoints config dimension).segments.map Segment.width).sum = dimension ∧
    (∀ fw : ℚ, generateFixedJoints { config with fingerWidth := fw } dimension =
      generateFixedJoints config dimension) := by
  obtain ⟨fw, fc, ck⟩ := config
  dsimp only at hfc ⊢
  have hnn : (0 : ℤ) ≤ fc * 2 - 1 := by omega
  have hseg : (generateFixedJoints ⟨fw, fc, ck⟩ dimension).segments =
      (List.range (fc * 2 - 1).toNat).map fun i =>
        { start := (i : ℚ) * (dimension / ((fc * 2 - 1 : ℤ) : ℚ)),
          width := dimension / ((fc * 2 - 1 : ℤ) : ℚ),
          type := if i % 2 = 0 then SegType.finger else SegType.groove } := by
    cases ck <;> rfl
  have hlen : (generateFixedJoints ⟨fw, fc, ck⟩ dimension).segments.length =
      (fc * 2 - 1).toNat := by
    rw [hseg]; simp
  refine ⟨rfl, ?_, ?_, ?_, ?_, ?_⟩
  · rw [hlen]; omega
  · intro i hi
    simp only [hseg, List.get_eq_getElem, List.getElem_map, List.getElem_range]
    exact ⟨trivial, trivial, trivial⟩
  · rw [hlen]; omega
  · rw [hseg, List.map_map]
    have hconst : (Segment.width ∘ fun i : ℕ =>
        ({ start := (i : ℚ) * (dimension / ((fc * 2 - 1 : ℤ) : ℚ)),
           width := dimension / ((fc * 2 - 1 : ℤ) : ℚ),
           type := if i % 2 = 0 then SegType.finger else SegType.groove } : Segment)) =
        fun _ : ℕ => dimension / ((fc * 2 - 1 : ℤ) : ℚ) := rfl
    rw [hconst, List.map_const', List.length_range, List.sum_replicate, nsmul_eq_mul]
    have hcast : (((fc * 2 - 1).toNat : ℚ)) = ((fc * 2 - 1 : ℤ) : ℚ) := by
      exact_mod_cast congrArg (fun z : ℤ => (z : ℚ)) (Int.toNat_of_nonneg hnn)
    rw [hcast]
    have hne : ((fc * 2 - 1 : ℤ) : ℚ) ≠ 0 := by
      have h1 : (1 : ℤ) ≤ fc * 2 - 1 := by omega
      have h2 : (1 : ℚ) ≤ ((fc * 2 - 1 : ℤ) : ℚ) := by exact_mod_cast h1
      linarith
    exact mul_div_cancel₀ dimension hne
  · intro w
    cases ck <;> rfl

/-- Witness for C1 at `fingerCount = 3`, `dimension = 25`. -/
theorem fixed_segments_correct_witness :
    (1 : ℤ) ≤ 3 ∧ (0 : ℚ) < 25 ∧
    (generateFixedJoints ⟨10, 3, false⟩ 25).valid = true ∧
    ((generateFixedJoints ⟨10, 3, false⟩ 25).segments.map Segment.width).sum = 25 := by
  have h := fixed_segments_correct ⟨10, 3, false⟩ 25 (by norm_num) (by norm_num)
  exact ⟨by norm_num, by norm_num, h.1, h.2.2.2.2.1⟩

/-- C2: for a non-empty positive geometry whose sum is within 0.001 of the
dimension and a start parity flag in `{0, 1}`, `generateVariableJoints`
succeeds and returns one segment per geometry entry, widths in order,
starts the cumulative sums from 0, and type at `i` a finger exactly when
`(i + start) % 2 == 0`; whenever the sum is more than 0.001 away it fails
with a descriptive error. -/
theorem variable_segments_correct (config : VariableJointConfig) (dimension : ℚ) :
    (config.geometry ≠ [] → (∀ w ∈ config.geometry, 0 < w) →
      (config.start = 0 ∨ config.start = 1) →
      |config.geometry.sum - dimension| ≤ 1 / 1000 →
      generateVariableJoints config dimension =
        { valid := true, segments := variableSegmentSpec config.start config.geometry,
          error := none }) ∧
    (|config.geometry.sum - dimension| > 1 / 1000 →
      (generateVariableJoints config dimension).valid = false ∧
      ((generateVariableJoints config dimension).error).isSome = true) := by
  have hsum : config.geometry.foldl (· + ·) 0 = config.geometry.sum := by
    simpa using foldl_add_eq_sum config.geometry 0
  constructor
  · intro _ _ _ hclose
    have hnot : ¬ (|config.geometry.foldl (· + ·) 0 - dimension| > 1 / 1000) := by
      rw [hsum]; exact not_lt.mpr hclose
    simp only [generateVariableJoints, if_neg hnot, buildVariableSegments_zero]
  · intro hfar
    have hcond : |config.geometry.foldl (· + ·) 0 - dimension| > 1 / 1000 := by
      rw [hsum]; exact hfar
    simp only [generateVariableJoints, if_pos hcond]
    exact ⟨trivial, rfl⟩

/-- Witness for C2: geometry `[3, 4, 5]` with dimension 12 succeeds;
with dimension 20 it fails. -/
theorem variable_segments_correct_witness :
    generateVariableJoints ⟨0, [3, 4, 5]⟩ 12 =
      { valid := true, segments := variableSegmentSpec 0 [3, 4, 5], error := none } ∧
    (generateVariableJoints ⟨0, [3, 4, 5]⟩ 20).valid = false := by
  constructor
  · exact (variable_segments_correct ⟨0, [3, 4, 5]⟩ 12).1 (by decide)
      (by decide) (Or.inl rfl) (by norm_num [List.sum_cons, List.sum_nil])
  · exact ((variable_segments_correct ⟨0, [3, 4, 5]⟩ 20).2
      (by norm_num [List.sum_cons, List.sum_nil])).1

/-- C10: `generateVariableJoints` itself checks neither positivity nor
non-emptiness: any geometry (zero, negative, or no entries) whose sum is
within 0.001 of the dimension yields `valid := true` with one segment per
entry; rejecting non-positive entries and empty geometry is done only by
the separate `validateVariableJoint`. -/
theorem variable_generation_no_positivity_check
    (config : VariableJointConfig) (dimension : ℚ) :
    (|config.geometry.sum - dimension| ≤ 1 / 1000 →
      (generateVariableJoints config dimension).valid = true ∧
      (generateVariableJoints config dimension).segments.length =
        config.geometry.length) ∧
    (∀ d : ℚ, (validateVariableJoint [] d).valid = false) ∧
    (∀ g : List ℚ, ∀ d w : ℚ, w ∈ g → w ≤ 0 →
      (validateVariableJoint g d).valid = false) := by
  refine ⟨fun hclose => ?_, fun d => by simp [validateVariableJoint], ?_⟩
  · have hnot : ¬ (|config.geometry.foldl (· + ·) 0 - dimension| > 1 / 1000) := by
      have hsum : config.geometry.foldl (· + ·) 0 = config.geometry.sum := by
        simpa using foldl_add_eq_sum config.geometry 0
      rw [hsum]; exact not_lt.mpr hclose
    constructor
    · simp only [generateVariableJoints, if_neg hnot]
    · simp only [generateVariableJoints, if_neg hnot]
      exact buildVariableSegments_length config.start config.geometry 0 0
  · intro g d w hw hle
    cases g with
    | nil => cases hw
    | cons x xs =>
        have hany : (x :: xs).any (fun v => decide (v ≤ 0)) = true := by
          rw [List.any_eq_true]
          exact ⟨w, hw, by simpa using hle⟩
        simp [validateVariableJoint, hany]

/-- Witness for C10: geometry `[2, -1, 1]` (a negative entry) with matching
sum 2 passes generation but fails validation; the empty geometry fails
validation. -/
theorem variable_generation_no_positivity_check_witness :
    (generateVariableJoints ⟨0, [2, -1, 1]⟩ 2).valid = true ∧
    (generateVariableJoints ⟨0, [2, -1, 1]⟩ 2).segments.length = 3 ∧
    (validateVariableJoint [] 5).valid = false ∧
    (validateVariableJoint [2, -1, 1] 2).valid = false := by
  have h := variable_generation_no_positivity_check ⟨0, [2, -1, 1]⟩ 2
  exact ⟨(h.1 (by norm_num [List.sum_cons, List.sum_nil])).1,
    ((h.1 (by norm_num [List.sum_cons, List.sum_nil])).2).trans rfl, h.2.1 5,
    h.2.2 [2, -1, 1] 2 (-1) (by decide) (by norm_num)⟩

/-- C6: `validateFixedJoint` fails on `fingerWidth ≤ 0` or `fingerCount < 1`;
otherwise it fails exactly when `fingerWidth` is more than 0.01 away from
`calculateOptimalFingerWidth` (which is the 0.5-rounded
`dimension / (2*fingerCount - 1)`, and 0 for `fingerCount < 1` or
`dimension ≤ 0`), carrying that optimal value as `suggestedWidth`; in
particular `{fingerWidth: 10, fingerCount: 5}` against dimension 100 fails
with suggestion 11. -/
theorem fixed_validation_correct (config : FixedJointConfig) (dimension : ℚ) :
    ((config.fingerWidth ≤ 0 ∨ config.fingerCount < 1) →
      (validateFixedJoint config dimension).valid = false) ∧
    (0 < config.fingerWidth → 1 ≤ config.fingerCount →
      ((validateFixedJoint config dimension).valid = false ↔
        |config.fingerWidth - calculateOptimalFingerWidth config.fingerCount dimension| >
          1 / 100) ∧
      (|config.fingerWidth - calculateOptimalFingerWidth config.fingerCount dimension| >
          1 / 100 →
        (validateFixedJoint config dimension).suggestedWidth =
          some (calculateOptimalFingerWidth config.fingerCount dimension))) ∧
    ((config.fingerCount < 1 ∨ dimension ≤ 0) →
      calculateOptimalFingerWidth config.fingerCount dimension = 0) ∧
    (1 ≤ config.fingerCount → 0 < dimension →
      calculateOptimalFingerWidth config.fingerCount dimension =
        (jsRound (dimension / ((config.fingerCount * 2 - 1 : ℤ) : ℚ) * 2) : ℚ) / 2) ∧
    (validateFixedJoint ⟨10, 5, false⟩ 100).valid = false ∧
    (validateFixedJoint ⟨10, 5, false⟩ 100).suggestedWidth = some 11 := by
  have hconcrete : validateFixedJoint ⟨10, 5, false⟩ 100 =
      { valid := false, error := some ("Finger width does not match board dimension"),
        suggestedWidth := some 11 } := by
    rw [validateFixedJoint]
    rw [if_neg (by norm_num), if_neg (by norm_num)]
    simp only [calculateOptimalFingerWidth_five_hundred]
    rw [if_pos (by norm_num)]
  refine ⟨?_, ?_, ?_, ?_, by rw [hconcrete], by rw [hconcrete]⟩
  · intro h
    rcases h with h | h
    · rw [validateFixedJoint, if_pos h]
    · by_cases h1 : config.fingerWidth ≤ 0
      · rw [validateFixedJoint, if_pos h1]
      · rw [validateFixedJoint, if_neg h1, if_pos h]
  · intro hfw hfc
    rw [validateFixedJoint, if_neg (not_le.mpr hfw), if_neg (not_lt.mpr hfc)]
    by_cases hd :
        |config.fingerWidth - calculateOptimalFingerWidth config.fingerCount dimension| >
          1 / 100
    · rw [if_pos hd]
      exact ⟨⟨fun _ => hd, fun _ => rfl⟩, fun _ => rfl⟩
    · rw [if_neg hd]
      refine ⟨⟨fun hcontra => ?_, fun hx => absurd hx hd⟩, fun hx => absurd hx hd⟩
      simp at hcontra
  · intro h
    rw [calculateOptimalFingerWidth, if_pos h]
  · intro h1 h2
    rw [calculateOptimalFingerWidth,
      if_neg (by push_neg; exact ⟨by omega, by linarith⟩)]

/-- Witness for C6: the spec's worked example plus a non-positive width. -/
theorem fixed_validation_correct_witness :
    (validateFixedJoint ⟨10, 5, false⟩ 100).valid = false ∧
    (validateFixedJoint ⟨10, 5, false⟩ 100).suggestedWidth = some 11 ∧
    (validateFixedJoint ⟨-3, 5, false⟩ 100).valid = false ∧
    calculateOptimalFingerWidth 0 100 = 0 := by
  have h := fixed_validation_correct ⟨10, 5, false⟩ 100
  have h2 := fixed_validation_correct ⟨-3, 5, false⟩ 100
  have h3 := fixed_validation_correct ⟨1, 0, false⟩ 100
  exact ⟨h.2.2.2.2.1, h.2.2.2.2.2, h2.1 (Or.inl (by norm_num)),
    h3.2.2.1 (Or.inl (by norm_num))⟩

/-- C3: the carving depth for a side resolves `grooveDepth ?? thickness` and
clamps: above-thickness values become `thickness`, non-positive values fall
back to `thickness`; so for a positive board thickness the resolved depth is
always strictly positive and never exceeds the thickness. -/
theorem groove_depth_resolution (thickness : ℚ) (ht : 0 < thickness) :
    (∀ gd : Option ℚ, 0 < resolveGrooveDepth gd thickness ∧
      resolveGrooveDepth gd thickness ≤ thickness) ∧
    resolveGrooveDepth none thickness = thickness ∧
    (∀ d : ℚ, thickness < d → resolveGrooveDepth (some d) thickness = thickness) ∧
    (∀ d : ℚ, d ≤ 0 → resolveGrooveDepth (some d) thickness = thickness) ∧
    (∀ d : ℚ, 0 < d → d ≤ thickness → resolveGrooveDepth (some d) thickness = d) := by
  refine ⟨fun gd => ?_, ?_, fun d hd => ?_, fun d hd => ?_, fun d hd1 hd2 => ?_⟩
  · cases gd with
    | none =>
        simp only [resolveGrooveDepth, Option.getD_none]
        split_ifs <;> constructor <;> linarith
    | some d =>
        simp only [resolveGrooveDepth, Option.getD_some]
        split_ifs <;> constructor <;> linarith
  · simp only [resolveGrooveDepth, Option.getD_none]
    split_ifs <;> linarith
  · simp only [resolveGrooveDepth, Option.getD_some]
    rw [if_pos hd, if_neg (not_le.mpr ht)]
  · simp only [resolveGrooveDepth, Option.getD_some]
    rw [if_neg (not_lt.mpr (le_trans hd (le_of_lt ht))), if_pos hd]
  · simp only [resolveGrooveDepth, Option.getD_some]
    rw [if_neg (not_lt.mpr hd2), if_neg (not_le.mpr hd1)]

/-- Witness for C3: the spec's examples at thickness 20. -/
theorem groove_depth_resolution_witness :
    resolveGrooveDepth none 20 = 20 ∧
    resolveGrooveDepth (some 25) 20 = 20 ∧
    resolveGrooveDepth (some (-1)) 20 = 20 ∧
    resolveGrooveDepth (some 12) 20 = 12 := by
  have h := groove_depth_resolution 20 (by norm_num)
  exact ⟨h.2.1, h.2.2.1 25 (by norm_num), h.2.2.2.1 (-1) (by norm_num),
    h.2.2.2.2 12 (by norm_num) (by norm_num)⟩

/-- C4: the groove solid for each side is the box of the spec's table —
for `top` size `(segWidth, depth, thickness)` at
`x = -halfWidth + segStart + segWidth/2`, `y = halfHeight - depth/2`, `z = 0`;
`bottom` mirrors `y`; `left` and `right` swap the roles of `x` and `y`
with size `(depth, segWidth, thickness)`. -/
theorem groove_geometry_placement (dims : Dimensions) (segment : Segment) (depth : ℚ) :
    (createGrooveGeometry dims Side.top segment depth =
      { sizeX := segment.width, sizeY := depth, sizeZ := dims.thickness,
        position := { x := -(dims.width / 2) + segment.start + segment.width / 2,
                      y := dims.height / 2 - depth / 2, z := 0 } }) ∧
    (createGrooveGeometry dims Side.bottom segment depth =
      { sizeX := segment.width, sizeY := depth, sizeZ := dims.thickness,
        position := { x := -(dims.width / 2) + segment.start + segment.width / 2,
                      y := -(dims.height / 2) + depth / 2, z := 0 } }) ∧
    (createGrooveGeometry dims Side.left segment depth =
      { sizeX := depth, sizeY := segment.width, sizeZ := dims.thickness,
        position := { x := -(dims.width / 2) + depth / 2,
                      y := -(dims.height / 2) + segment.start + segment.width / 2,
                      z := 0 } }) ∧
    (createGrooveGeometry dims Side.right segment depth =
      { sizeX := depth, sizeY := segment.width, sizeZ := dims.thickness,
        position := { x := dims.width / 2 - depth / 2,
                      y := -(dims.height / 2) + segment.start + segment.width / 2,
                      z := 0 } }) := by
  refine ⟨?_, ?_, ?_, ?_⟩ <;>
    simp only [createGrooveGeometry, GrooveBox.mk.injEq, Vec3.mk.injEq] <;>
    and_intros <;>
    first
      | trivial
      | ring

/-- C5: carving is all-or-nothing per pass — if the boolean engine fails at
any step, the board keeps its previously held solid unchanged (and the
total function never propagates the failure); otherwise the committed solid
is exactly the fully subtracted result. -/
theorem carving_all_or_nothing {S G : Type} (subtract : S → G → Option S)
    (boardSolid : S) (grooveMeshes : List G) :
    (applyGrooveSubtractions subtract boardSolid grooveMeshes = none →
      subtractGroovesFromBoard subtract boardSolid grooveMeshes = boardSolid) ∧
    (subtractGroovesFromBoard subtract boardSolid grooveMeshes = boardSolid ∨
      applyGrooveSubtractions subtract boardSolid grooveMeshes =
        some (subtractGroovesFromBoard subtract boardSolid grooveMeshes)) := by
  unfold subtractGroovesFromBoard
  by_cases he : grooveMeshes.isEmpty
  · rw [if_pos he]
    exact ⟨fun _ => rfl, Or.inl rfl⟩
  · rw [if_neg he]
    cases hres : applyGrooveSubtractions subtract boardSolid grooveMeshes with
    | none => exact ⟨fun _ => rfl, Or.inl rfl⟩
    | some r => exact ⟨fun hn => absurd hn (by simp), Or.inr rfl⟩

/-- Witness for C5: an engine that always fails leaves the solid unchanged;
an engine that always succeeds commits the subtracted result. -/
theorem carving_all_or_nothing_witness :
    subtractGroovesFromBoard (fun (_ : ℤ) (_ : ℤ) => (none : Option ℤ)) 7 [1, 2] = 7 ∧
    subtractGroovesFromBoard (fun (s : ℤ) (g : ℤ) => some (s - g)) 7 [1, 2] = 4 := by
  constructor
  · exact (carving_all_or_nothing (fun _ _ => none) 7 [1, 2]).1 rfl
  · decide

/-- C9: `parseGeometryArray` splits its input on commas, trims each token,
drops the tokens empty after trimming, and parses the rest with
`parseFloat`: it fails exactly when some remaining token is non-numeric,
and on success returns the parsed values in order, one per remaining
token. -/
theorem parse_geometry_correct (input : String) :
    ((parseGeometryArray input).valid = false ↔
      ∃ t ∈ ((splitOnComma input.data).map trimToken).filter (fun t => t.length > 0),
        jsParseFloat t = none) ∧
    ((parseGeometryArray input).valid = true →
      (parseGeometryArray input).values =
        (((splitOnComma input.data).map trimToken).filter
          (fun t => t.length > 0)).filterMap jsParseFloat ∧
      (parseGeometryArray input).values.length =
        (((splitOnComma input.data).map trimToken).filter
          (fun t => t.length > 0)).length) := by
  have hex : ((((splitOnComma input.data).map trimToken).filter
        (fun t => t.length > 0)).map jsParseFloat).any Option.isNone = true ↔
      ∃ t ∈ ((splitOnComma input.data).map trimToken).filter (fun t => t.length > 0),
        jsParseFloat t = none := by
    rw [List.any_eq_true]
    constructor
    · rintro ⟨o, ho, hnone⟩
      rw [List.mem_map] at ho
      obtain ⟨t, ht, rfl⟩ := ho
      exact ⟨t, ht, Option.isNone_iff_eq_none.mp hnone⟩
    · rintro ⟨t, ht, hnone⟩
      exact ⟨jsParseFloat t, List.mem_map_of_mem _ ht,
        Option.isNone_iff_eq_none.mpr hnone⟩
  by_cases hany : ((((splitOnComma input.data).map trimToken).filter
      (fun t => t.length > 0)).map jsParseFloat).any Option.isNone = true
  · have hres : parseGeometryArray input =
        { valid := false, error := some ("Invalid number in geometry array"),
          values := [] } := by
      rw [parseGeometryArray, if_pos hany]
    rw [hres]
    exact ⟨by simpa using hex.mp hany, fun hcontra => by simp at hcontra⟩
  · have hres : parseGeometryArray input =
        { valid := true, error := none,
          values := ((((splitOnComma input.data).map trimToken).filter
            (fun t => t.length > 0)).map jsParseFloat).filterMap id } := by
      rw [parseGeometryArray, if_neg hany]
    have hall : ∀ o ∈ (((splitOnComma input.data).map trimToken).filter
        (fun t => t.length > 0)).map jsParseFloat, o ≠ none := by
      intro o ho hnone
      exact hany (List.any_eq_true.mpr ⟨o, ho, by simp [hnone]⟩)
    rw [hres]
    refine ⟨by simpa [hex] using hany, fun _ => ⟨?_, ?_⟩⟩
    · rw [List.filterMap_map]
      simp [Function.comp]
    · rw [filterMap_id_length _ hall, List.length_map]

/-- Witness for C9: a non-numeric token fails; tokens with blanks dropped
parse one value per remaining token. -/
theorem parse_geometry_correct_witness :
    (parseGeometryArray ("1,abc")).valid = false ∧
    (parseGeometryArray ("3, 4, ,5")).valid = true ∧
    (parseGeometryArray ("3, 4, ,5")).values.length = 3 := by
  refine ⟨(parse_geometry_correct ("1,abc")).1.mpr ⟨("abc").data, by decide, by decide⟩,
    by decide, ?_⟩
  exact ((parse_geometry_correct ("3, 4, ,5")).2 (by decide)).2.trans (by decide)
